import Mathlib

/-!
Verification development for the directory-listing and thumbnail-generation
pipeline of the `flux` file manager (`src/app.rs`, `src/utils.rs`,
`src/model.rs`).

The Rust code is shallowly embedded: pure fragments become Lean functions,
the stateful `update` loop becomes an explicit step function on a state
type, and the external world (filesystem, `ffmpeg`, the GDK texture
decoder) is an explicit environment record.  The `u64` session counter is
modelled as a `Nat` reduced modulo `2 ^ 64` exactly where the Rust
`AtomicU64` wraps.
-/

namespace Flux

/-! ### Comparators

Rust total orders used by the sort comparator in `FluxApp::load_path`
(`app.rs` lines 719-744): `u64`/`SystemTime` ordering, `Option` ordering
(`None < Some`), `bool` ordering (`false < true`), and byte-lexicographic
`String` ordering.  For valid UTF-8, byte-lexicographic order coincides
with code-point-lexicographic order, which we model on lists of code
points. -/

/-- Rust `Ord` on unsigned integers / `SystemTime`, as an `Ordering`. -/
def natCmp (a b : Nat) : Ordering :=
  if a < b then .lt else if b < a then .gt else .eq

/-- Rust `Ord` on `Option<SystemTime>`: `None` is smallest. -/
def optCmp : Option Nat → Option Nat → Ordering
  | none, none => .eq
  | none, some _ => .lt
  | some _, none => .gt
  | some a, some b => natCmp a b

/-- Rust `Ord` on `bool`: `false < true`. -/
def boolCmp : Bool → Bool → Ordering
  | false, true => .lt
  | true, false => .gt
  | _, _ => .eq

/-- Rust `Ord` on strings, modelled lexicographically on code points. -/
def lexCmp : List Nat → List Nat → Ordering
  | [], [] => .eq
  | [], _ :: _ => .lt
  | _ :: _, [] => .gt
  | a :: as, b :: bs =>
    match natCmp a b with
    | .eq => lexCmp as bs
    | o => o

/-- ASCII lowercasing of one code point, modelling Rust
`str::to_lowercase` on the ASCII range (names are compared
case-insensitively through this map in `app.rs` lines 707-709 and 732). -/
def lowerCp (n : Nat) : Nat := if 65 ≤ n ∧ n ≤ 90 then n + 32 else n

/-- The code points of `s.to_lowercase()`, the case-insensitive sort and
filter key used by `load_path`. -/
def lowerStr (s : String) : List Nat := s.data.map (fun c => lowerCp c.toNat)

/-! ### Data model

`load_path` (`app.rs` lines 693-704) builds, per directory child, the
tuple `(name, target_path, metadata: Option<Metadata>, is_dir)`.  From a
`Metadata` the comparator reads `len()` (always available) and
`modified().ok()` (optional). -/

/-- The two fields of `std::fs::Metadata` the pipeline reads. -/
structure Meta where
  len : Nat
  modified : Option Nat
deriving DecidableEq, Repr

/-- One scanned directory child: the tuple
`(name, target_path, metadata, is_dir)` built by `load_path`. -/
structure Entry where
  name : String
  path : String
  meta : Option Meta
  isDir : Bool
deriving DecidableEq, Repr

/-- `SortBy` from `model.rs`. -/
inductive SortBy
  | Name
  | Date
  | Size
deriving DecidableEq, Repr

/-- The ordering policy consumed by the comparator: the active sort key
(`self.sort_by`) and `config.ui.folders_first`. -/
structure Policy where
  sortBy : SortBy
  foldersFirst : Bool
deriving DecidableEq, Repr

/-- `a.2.as_ref().map(|m| m.len()).unwrap_or(0)`: absent size sorts as 0. -/
def sizeKey (e : Entry) : Nat := (e.meta.map Meta.len).getD 0

/-- `a.2.as_ref().and_then(|m| m.modified().ok())`: optional mtime. -/
def dateKey (e : Entry) : Option Nat := e.meta.bind Meta.modified

/-- The sort comparator of `FluxApp::load_path` (`app.rs` lines 719-744),
transcribed clause by clause: directories vs files first (direction per
`folders_first`), then the secondary key; `Size` and `Date` compare with
swapped operands (descending); there is no further tie-break. -/
def cmpEntry (p : Policy) (a b : Entry) : Ordering :=
  if a.isDir ≠ b.isDir then
    if p.foldersFirst then boolCmp b.isDir a.isDir else boolCmp a.isDir b.isDir
  else
    match p.sortBy with
    | .Name => lexCmp (lowerStr a.name) (lowerStr b.name)
    | .Size => natCmp (sizeKey b) (sizeKey a)
    | .Date => optCmp (dateKey b) (dateKey a)

/-- `a` may be placed no later than `b`: the comparator did not say
`Greater`.  A stable sort with comparator `cmpEntry p` orders by this
relation. -/
def entryLE (p : Policy) (a b : Entry) : Prop := cmpEntry p a b ≠ Ordering.gt

instance (p : Policy) : DecidableRel (entryLE p) := fun a b =>
  inferInstanceAs (Decidable (cmpEntry p a b ≠ Ordering.gt))

/-- Model of `items_metadata.sort_by(comparator)` (`app.rs` line 719).
Rust `sort_by` is a stable sort; a stable sort's output is the unique
permutation of the input that is sorted by `entryLE p` and keeps
comparator-equal entries in input order, so the structurally recursive
stable `List.insertionSort` is a faithful model. -/
def sortEntries (p : Policy) (l : List Entry) : List Entry :=
  List.insertionSort (entryLE p) l

/-- `name.to_lowercase().contains(&self.filter.to_lowercase())`
(`app.rs` line 709): case-insensitive substring match. -/
def nameMatches (f : String) (e : Entry) : Prop :=
  lowerStr f <:+: lowerStr e.name

instance (f : String) : DecidablePred (nameMatches f) := fun e =>
  inferInstanceAs (Decidable (lowerStr f <:+: lowerStr e.name))

/-- The filter step of `load_path` (`app.rs` lines 706-715): with a
non-empty filter, keep the case-insensitive matches, unless no entry
matches, in which case the whole set is kept. -/
def applyFilter (f : String) (l : List Entry) : List Entry :=
  if f.isEmpty then l
  else
    let m := l.filter (fun e => decide (nameMatches f e))
    if m.isEmpty then l else m

/-- The ordering function of the spec: filter, then stable sort
(`app.rs` lines 706-744). -/
def orderFn (p : Policy) (f : String) (l : List Entry) : List Entry :=
  sortEntries p (applyFilter f l)

/-! ### Basic comparator lemmas -/

theorem natCmp_ne_gt {a b : Nat} : natCmp a b ≠ .gt ↔ a ≤ b := by
  unfold natCmp; split_ifs <;> simp <;> omega

theorem natCmp_eq_iff {a b : Nat} : natCmp a b = .eq ↔ a = b := by
  unfold natCmp; split_ifs <;> simp <;> omega

theorem natCmp_lt_iff {a b : Nat} : natCmp a b = .lt ↔ a < b := by
  unfold natCmp; split_ifs <;> simp <;> omega

theorem natCmp_swap (a b : Nat) : (natCmp a b).swap = natCmp b a := by
  unfold natCmp; split_ifs <;> first | rfl | omega

theorem natCmp_trans {a b c : Nat} (h1 : natCmp a b ≠ .gt) (h2 : natCmp b c ≠ .gt) :
    natCmp a c ≠ .gt := by
  rw [natCmp_ne_gt] at *; omega

theorem boolCmp_swap (a b : Bool) : (boolCmp a b).swap = boolCmp b a := by
  cases a <;> cases b <;> rfl

theorem optCmp_swap (a b : Option Nat) : (optCmp a b).swap = optCmp b a := by
  cases a <;> cases b <;> first | rfl | exact natCmp_swap _ _

theorem optCmp_trans {a b c : Option Nat} (h1 : optCmp a b ≠ .gt) (h2 : optCmp b c ≠ .gt) :
    optCmp a c ≠ .gt := by
  cases a <;> cases b <;> cases c <;> simp_all [optCmp]
  exact natCmp_trans h1 h2

theorem lexCmp_swap : ∀ x y : List Nat, (lexCmp x y).swap = lexCmp y x
  | [], [] => rfl
  | [], _ :: _ => rfl
  | _ :: _, [] => rfl
  | a :: as, b :: bs => by
    cases h : natCmp a b
    · have h2 : natCmp b a = Ordering.gt := by rw [← natCmp_swap, h]; rfl
      simp [lexCmp, h, h2, Ordering.swap]
    · have h2 : natCmp b a = Ordering.eq := by rw [← natCmp_swap, h]; rfl
      simp [lexCmp, h, h2, lexCmp_swap as bs]
    · have h2 : natCmp b a = Ordering.lt := by rw [← natCmp_swap, h]; rfl
      simp [lexCmp, h, h2, Ordering.swap]

theorem lexCmp_trans : ∀ {x y z : List Nat},
    lexCmp x y ≠ .gt → lexCmp y z ≠ .gt → lexCmp x z ≠ .gt
  | [], _, z, _, _ => by cases z <;> simp [lexCmp]
  | _ :: _, [], _, h1, _ => by simp [lexCmp] at h1
  | _ :: _, _ :: _, [], _, h2 => by simp [lexCmp] at h2
  | a :: as, b :: bs, c :: cs, h1, h2 => by
    simp only [lexCmp] at h1 h2 ⊢
    cases hab : natCmp a b with
    | gt => rw [hab] at h1; exact absurd rfl h1
    | lt =>
      cases hbc : natCmp b c with
      | gt => rw [hbc] at h2; exact absurd rfl h2
      | lt =>
        have hac : natCmp a c = Ordering.lt :=
          natCmp_lt_iff.mpr (lt_trans (natCmp_lt_iff.mp hab) (natCmp_lt_iff.mp hbc))
        rw [hac]
        exact fun hcontra => Ordering.noConfusion hcontra
      | eq =>
        have hbc2 : b = c := natCmp_eq_iff.mp hbc
        subst hbc2
        rw [hab]; exact fun hcontra => Ordering.noConfusion hcontra
    | eq =>
      have hab2 : a = b := natCmp_eq_iff.mp hab
      subst hab2
      have haa : natCmp a a = Ordering.eq := natCmp_eq_iff.mpr rfl
      rw [haa] at h1
      cases hac : natCmp a c with
      | gt => rw [hac] at h2; exact absurd rfl h2
      | lt => exact fun hcontra => Ordering.noConfusion hcontra
      | eq => rw [hac] at h2; exact lexCmp_trans h1 h2

/-! ### The comparator is a total preorder -/

theorem cmpEntry_swap (p : Policy) (a b : Entry) :
    (cmpEntry p a b).swap = cmpEntry p b a := by
  unfold cmpEntry
  by_cases h : a.isDir = b.isDir
  · simp only [h, ne_eq, not_true_eq_false, if_false, ite_false]
    cases p.sortBy
    · exact lexCmp_swap _ _
    · exact optCmp_swap _ _
    · exact natCmp_swap _ _
  · simp only [h, ne_eq, not_false_eq_true, if_true, ite_true, Ne.symm h]
    by_cases hf : p.foldersFirst <;> simp [hf, boolCmp_swap]

theorem cmpEntry_trans {p : Policy} {a b c : Entry}
    (h1 : cmpEntry p a b ≠ .gt) (h2 : cmpEntry p b c ≠ .gt) :
    cmpEntry p a c ≠ .gt := by
  obtain ⟨sb, ff⟩ := p
  by_cases hab : a.isDir = b.isDir <;> by_cases hbc : b.isDir = c.isDir
  · have hac : a.isDir = c.isDir := hab.trans hbc
    simp only [cmpEntry, hab, hbc, ne_eq, not_true_eq_false, if_false, ite_false] at h1 h2 ⊢
    cases sb
    · exact lexCmp_trans h1 h2
    · exact optCmp_trans h2 h1
    · exact natCmp_trans h2 h1
  · have hac : a.isDir ≠ c.isDir := hab ▸ hbc
    simp only [cmpEntry, hab, hbc, hac, ne_eq, not_false_eq_true, if_true, ite_true] at h2 ⊢
    simpa [hab] using h2
  · have hac : a.isDir ≠ c.isDir := hbc ▸ hab
    simp only [cmpEntry, hab, hbc, hac, ne_eq, not_false_eq_true, if_true, ite_true] at h1 ⊢
    simpa [← hbc] using h1
  · exfalso
    cases ha : a.isDir <;> cases hb : b.isDir <;> cases hc : c.isDir <;>
      cases ff <;> simp_all [cmpEntry, boolCmp]

instance (p : Policy) : IsTotal Entry (entryLE p) := by
  constructor
  intro a b
  by_cases h : cmpEntry p a b = Ordering.gt
  · right
    unfold entryLE
    rw [← cmpEntry_swap, h]
    exact fun hcontra => Ordering.noConfusion hcontra
  · exact Or.inl h

instance (p : Policy) : IsTrans Entry (entryLE p) :=
  ⟨fun _ _ _ => cmpEntry_trans⟩

/-! ### Sortedness, permutation and stability of the model sort -/

theorem sortEntries_sorted (p : Policy) (l : List Entry) :
    List.Pairwise (entryLE p) (sortEntries p l) :=
  List.sorted_insertionSort (entryLE p) l

theorem sortEntries_perm (p : Policy) (l : List Entry) :
    List.Perm (sortEntries p l) l :=
  List.perm_insertionSort (entryLE p) l

theorem sortEntries_stable {p : Policy} {a b : Entry} {l : List Entry}
    (hab : entryLE p a b) (h : List.Sublist [a, b] l) :
    List.Sublist [a, b] (sortEntries p l) :=
  List.pair_sublist_insertionSort hab h

/-! ### Group and secondary-order consequences of sortedness -/

theorem entryLE_dir_first {p : Policy} {a b : Entry} (hff : p.foldersFirst = true)
    (hle : entryLE p a b) (hb : b.isDir = true) : a.isDir = true := by
  cases hA : a.isDir
  · exfalso
    exact hle (by simp [cmpEntry, hA, hb, hff, boolCmp])
  · rfl

theorem entryLE_file_first {p : Policy} {a b : Entry} (hff : p.foldersFirst = false)
    (hle : entryLE p a b) (ha : a.isDir = true) : b.isDir = true := by
  cases hB : b.isDir
  · exfalso
    exact hle (by simp [cmpEntry, hB, ha, hff, boolCmp])
  · rfl

/-- The secondary (within-group) order the spec describes: `Name`
ascending case-insensitively, `Size` descending with absent size as 0,
`Date` descending with absent timestamps smallest (hence last). -/
def secLE (sb : SortBy) (a b : Entry) : Prop :=
  match sb with
  | .Name => lexCmp (lowerStr a.name) (lowerStr b.name) ≠ Ordering.gt
  | .Size => sizeKey b ≤ sizeKey a
  | .Date => optCmp (dateKey b) (dateKey a) ≠ Ordering.gt

theorem entryLE_same_dir {p : Policy} {a b : Entry} (h : a.isDir = b.isDir)
    (hle : entryLE p a b) : secLE p.sortBy a b := by
  obtain ⟨sb, ff⟩ := p
  simp only [entryLE, cmpEntry, h, ne_eq, not_true_eq_false, if_false, ite_false] at hle
  cases sb
  · exact hle
  · exact hle
  · exact natCmp_ne_gt.mp hle

/-! ### Entry scanner

Model of the scan loop of `load_path` (`app.rs` lines 693-704).  A `none`
input models `std::fs::read_dir` returning `Err` (the listing stays empty
because `self.files.clear()` ran just before); a `none` element models a
child whose `DirEntry` itself is an `Err` (skipped by `.flatten()`); a
child whose `entry.metadata()` fails carries `meta = none` and is still
pushed. -/

/-- `name.starts_with('.')`: the hidden-file marker test, on the code
points of the name so that it evaluates inside the kernel. -/
def startsWithDot (s : String) : Bool :=
  match s.data with
  | [] => false
  | ch :: _ => ch.toNat == 46

/-- One child as produced by `read_dir`: its name, the result of
`entry.metadata().ok()` and of `target_path.is_dir()`. -/
structure RawChild where
  name : String
  meta : Option Meta
  isDir : Bool
deriving DecidableEq, Repr

/-- The scan loop: skip unreadable children, apply the hidden-name filter,
join the path, keep optional metadata. -/
def scanDir (dirPath : String) (showHidden : Bool)
    (rd : Option (List (Option RawChild))) : List Entry :=
  match rd with
  | none => []
  | some children =>
    (children.filterMap id).filterMap (fun c =>
      if !showHidden && startsWithDot c.name then none
      else some { name := c.name, path := dirPath ++ ("/") ++ c.name,
                  meta := c.meta, isDir := c.isDir })

/-! ### Load session counter

`load_path` reaches `self.load_id.fetch_add(1, SeqCst)` (`app.rs` line
690) only on the non-trash branch: the `trash://` branch (lines 652-680)
returns first.  The counter is a `u64`, so the increment wraps at
`2 ^ 64`. -/

/-- Effect of one `load_path` call on the session counter: the new counter
value, and the `current_session` id captured by this request (`none` for a
trash request, which never reaches the increment). -/
def loadPathSession (isTrash : Bool) (c : Nat) : Nat × Option Nat :=
  if isTrash then (c, none) else ((c + 1) % 2 ^ 64, some ((c + 1) % 2 ^ 64))

/-- The counter after a sequence of navigation/refresh requests
(`true` = trash request). -/
def runRequests (c : Nat) : List Bool → Nat
  | [] => c
  | t :: ts => runRequests (loadPathSession t c).1 ts

/-- The session ids issued over a sequence of requests, in order. -/
def issuedIds (c : Nat) : List Bool → List Nat
  | [] => []
  | t :: ts => (loadPathSession t c).2.toList ++ issuedIds (loadPathSession t c).1 ts

/-- Number of non-trash requests in a request sequence. -/
def nonTrashCount (ts : List Bool) : Nat := (ts.filter (fun t => !t)).length

theorem runRequests_eq : ∀ (ts : List Bool) (c : Nat),
    c + nonTrashCount ts < 2 ^ 64 → runRequests c ts = c + nonTrashCount ts
  | [], _, _ => rfl
  | t :: ts, c, h => by
    cases t
    · have hc : (c + 1) % 2 ^ 64 = c + 1 := by
        apply Nat.mod_eq_of_lt
        simp [nonTrashCount] at h
        omega
      simp only [runRequests, loadPathSession, if_false, Bool.false_eq_true, ite_false, hc]
      rw [runRequests_eq ts (c + 1) (by simp [nonTrashCount] at h ⊢; omega)]
      simp [nonTrashCount]
      omega
    · simp only [runRequests, loadPathSession, if_true, ite_true]
      rw [runRequests_eq ts c (by simp [nonTrashCount] at h ⊢; omega)]
      simp [nonTrashCount]

theorem issuedIds_mono : ∀ (ts : List Bool) (c : Nat),
    c + nonTrashCount ts < 2 ^ 64 →
    List.Pairwise (· < ·) (issuedIds c ts) ∧ ∀ x ∈ issuedIds c ts, c < x
  | [], c, _ => ⟨List.Pairwise.nil, by simp [issuedIds]⟩
  | t :: ts, c, h => by
    cases t
    · have hc : (c + 1) % 2 ^ 64 = c + 1 := by
        apply Nat.mod_eq_of_lt
        simp [nonTrashCount] at h
        omega
      have ih := issuedIds_mono ts (c + 1) (by simp [nonTrashCount] at h ⊢; omega)
      simp only [issuedIds, loadPathSession, Bool.false_eq_true, ite_false, hc,
        Option.toList_some, List.singleton_append]
      constructor
      · exact List.Pairwise.cons (fun x hx => ih.2 x hx) ih.1
      · intro x hx
        rcases List.mem_cons.mp hx with h1 | h2
        · omega
        · have := ih.2 x h2; omega
    · have ih := issuedIds_mono ts c (by simp [nonTrashCount] at h ⊢; omega)
      simpa only [issuedIds, loadPathSession, ite_true, Option.toList_none,
        List.nil_append] using ih

/-! ### Session coordinator state machine

The display-side state touched by the session mechanism: the shared
`load_id` counter and the displayed `files` listing.  A `load` event is a
non-trash `load_path` (increment the counter, publish a thumbnail-less
listing, `app.rs` lines 689-690 and 750-757); a `thumbReady` event is the
`AppMsg::ThumbnailReady` arm of `update` (lines 511-525), which applies
the texture to the first entry of matching name only when the tagged id
equals the live counter, and otherwise leaves everything unchanged.
Interleavings are arbitrary event lists, so any task-completion order
against any number of intervening sessions is covered. -/

/-- The display-relevant fields of a `FileItem`: its name and optional
thumbnail (a texture, abstracted to a number). -/
structure Item where
  name : String
  thumb : Option Nat
deriving DecidableEq, Repr

/-- Events relevant to the session property. -/
inductive Ev
  | load (names : List String)
  | thumbReady (name : String) (tex : Nat) (id : Nat)
deriving DecidableEq, Repr

/-- The session-relevant application state. -/
structure AppState where
  loadId : Nat
  files : List Item
deriving DecidableEq, Repr

/-- Set the thumbnail of the first item with the given name (the handler
looks up the first matching index and replaces that item). -/
def setThumb (name : String) (tex : Nat) : List Item → List Item
  | [] => []
  | x :: xs =>
    if x.name = name then { x with thumb := some tex } :: xs
    else x :: setThumb name tex xs

/-- One step of the event handler. -/
def step (s : AppState) : Ev → AppState
  | .load names =>
    { loadId := (s.loadId + 1) % 2 ^ 64,
      files := names.map (fun n => { name := n, thumb := none }) }
  | .thumbReady name tex id =>
    if id = s.loadId then { s with files := setThumb name tex s.files } else s

/-- Run a sequence of events. -/
def runEvents (s : AppState) (es : List Ev) : AppState := es.foldl step s

/-- The initial state: `load_id: Arc::new(AtomicU64::new(0))` and an empty
listing (`app.rs` line 306). -/
def initState : AppState := { loadId := 0, files := [] }

/-- Whether an event begins a new session. -/
def Ev.isLoad : Ev → Bool
  | .load _ => true
  | _ => false

/-- Number of sessions begun by an event sequence. -/
def loadCount (es : List Ev) : Nat := (es.filter Ev.isLoad).length

theorem step_thumbReady_loadId (s : AppState) (name : String) (tex id : Nat) :
    (step s (Ev.thumbReady name tex id)).loadId = s.loadId := by
  simp only [step]
  split <;> rfl

theorem runEvents_loadId : ∀ (es : List Ev) (s : AppState),
    s.loadId + loadCount es < 2 ^ 64 →
    (runEvents s es).loadId = s.loadId + loadCount es
  | [], s, _ => by simp [runEvents, loadCount]
  | e :: es, s, h => by
    cases e with
    | load names =>
      have hcount : loadCount (Ev.load names :: es) = loadCount es + 1 := by
        simp [loadCount, Ev.isLoad]
      rw [hcount] at h
      have hid : ((s.loadId + 1) % 2 ^ 64) = s.loadId + 1 := Nat.mod_eq_of_lt (by omega)
      have hrun : runEvents s (Ev.load names :: es) =
          runEvents (step s (Ev.load names)) es := rfl
      rw [hrun, runEvents_loadId es _ (by simp [step, hid]; omega)]
      simp [step, hid, hcount]
      omega
    | thumbReady name tex id =>
      have hcount : loadCount (Ev.thumbReady name tex id :: es) = loadCount es := by
        simp [loadCount, Ev.isLoad]
      rw [hcount] at h
      have hrun : runEvents s (Ev.thumbReady name tex id :: es) =
          runEvents (step s (Ev.thumbReady name tex id)) es := rfl
      rw [hrun, runEvents_loadId es _ (by rw [step_thumbReady_loadId]; omega)]
      rw [step_thumbReady_loadId, hcount]

theorem setThumb_no_match (name : String) (tex : Nat) :
    ∀ (l : List Item), (∀ item ∈ l, item.name ≠ name) → setThumb name tex l = l
  | [], _ => rfl
  | x :: xs, h => by
    have hx : x.name ≠ name := h x (List.mem_cons_self x xs)
    simp only [setThumb, hx, if_false, ite_false]
    rw [setThumb_no_match name tex xs (fun i hi => h i (List.mem_cons_of_mem x hi))]

/-! ### Thumbnail cache

Model of `get_or_create_thumbnail` (`utils.rs` lines 234-267).  The
environment captures, for one fixed source path, the behaviour of the
external world: whether the cache directory is creatable, the
content-type sniff, the result of the pixbuf decode of the source, the
`savev` outcome (its error is discarded by the code), the `ffmpeg` exit
status (`none` = spawn failure) and the file it leaves at the cache path,
and the GDK texture decoder as a function of file content.  The cache
file content at the path's hash is threaded explicitly; images are
abstract handles. -/

structure ThumbEnv where
  cacheDirOk : Bool
  isImg : Bool
  isVid : Bool
  imgDecode : Option Nat
  encodePng : Nat → List Nat
  savevOk : Bool
  toolStatus : Option Int
  toolWrites : Option (List Nat)
  texDecode : List Nat → Option Nat

/-- Result of one call: the returned optional texture, the cache file
content afterwards, and whether the call decoded the source image or
invoked the external tool. -/
structure ThumbResult where
  result : Option Nat
  cache : Option (List Nat)
  decodedSource : Bool
  invokedTool : Bool
deriving DecidableEq, Repr

/-- `get_or_create_thumbnail`, clause by clause: bail out if the cache
directory cannot be created; on a cache hit decode the cached file; else
decode-and-save for images, or run the external tool and decode its
output for videos (`s.success() && cache_path.exists()` guards the
decode); otherwise no thumbnail. -/
def get_or_create_thumbnail (env : ThumbEnv) (cache : Option (List Nat)) : ThumbResult :=
  if env.cacheDirOk = false then
    { result := none, cache := cache, decodedSource := false, invokedTool := false }
  else
    match cache with
    | some c =>
      { result := env.texDecode c, cache := some c,
        decodedSource := false, invokedTool := false }
    | none =>
      if env.isImg then
        match env.imgDecode with
        | some img =>
          { result := some img,
            cache := if env.savevOk then some (env.encodePng img) else none,
            decodedSource := true, invokedTool := false }
        | none =>
          { result := none, cache := none, decodedSource := true, invokedTool := false }
      else if env.isVid then
        match env.toolStatus with
        | some code =>
          { result :=
              if code = 0 ∧ env.toolWrites.isSome then env.toolWrites.bind env.texDecode
              else none,
            cache := env.toolWrites, decodedSource := false, invokedTool := true }
        | none =>
          { result := none, cache := none, decodedSource := false, invokedTool := true }
      else
        { result := none, cache := none, decodedSource := false, invokedTool := false }

theorem get_some_cache_hit (env : ThumbEnv) (c : List Nat) :
    (get_or_create_thumbnail env (some c)).cache = some c ∧
    (get_or_create_thumbnail env (some c)).decodedSource = false ∧
    (get_or_create_thumbnail env (some c)).invokedTool = false := by
  unfold get_or_create_thumbnail
  cases env.cacheDirOk <;> simp

/-! ## Claims -/

/-- C1: for every sequence of navigation/refresh requests in which a new
session is begun N times (fewer than the unreachable `2 ^ 64` bound of the
`u64` counter), only thumbnail results tagged with the Nth (latest)
session id are ever applied to the displayed listing; a result tagged with
any other id — in particular any of the ids 1..N-1 of superseded sessions
arriving after the Nth session begins — is dropped without modifying the
listing or any other state, for every interleaving of task completions
and session begins.  The first conjunct identifies the live counter after
the prefix with N, the number of sessions begun. -/
theorem C1_stale_session_results_dropped :
    ∀ (pre : List Ev) (name : String) (tex id : Nat),
      loadCount pre < 2 ^ 64 →
      id ≠ loadCount pre →
      (runEvents initState pre).loadId = loadCount pre ∧
      runEvents initState (pre ++ [Ev.thumbReady name tex id]) = runEvents initState pre := by
  intro pre name tex id hbound hid
  have hload : (runEvents initState pre).loadId = loadCount pre := by
    have h0 := runEvents_loadId pre initState (by simp [initState]; omega)
    simpa [initState] using h0
  refine ⟨hload, ?_⟩
  have happ : runEvents initState (pre ++ [Ev.thumbReady name tex id]) =
      step (runEvents initState pre) (Ev.thumbReady name tex id) := by
    simp [runEvents, List.foldl_append]
  rw [happ]
  simp only [step, hload]
  rw [if_neg hid]

/-- C1 witness: two sessions are begun, then a result tagged with the
superseded id 1 arrives; it leaves the state unchanged. -/
theorem C1_stale_session_results_dropped_witness :
    (runEvents initState [Ev.load [("x")], Ev.load [("y")]]).loadId =
      loadCount [Ev.load [("x")], Ev.load [("y")]] ∧
    runEvents initState ([Ev.load [("x")], Ev.load [("y")]] ++ [Ev.thumbReady ("x") 7 1]) =
      runEvents initState [Ev.load [("x")], Ev.load [("y")]] :=
  C1_stale_session_results_dropped [Ev.load [("x")], Ev.load [("y")]] ("x") 7 1
    (by decide) (by decide)

/-- C2 entries with equal primary and secondary keys (both files, equal
lowercased names) but different visible names. -/
def c2U : Entry :=
  { name := "A.txt", path := "/d/A.txt", meta := some { len := 1, modified := some 1 },
    isDir := false }

/-- Companion of `c2U` for the C2 counterexample. -/
def c2L : Entry :=
  { name := "a.txt", path := "/d/a.txt", meta := some { len := 1, modified := some 1 },
    isDir := false }

/-- C2 counterexample: the two entries compare equal under the Name
policy, yet swapping them in the input swaps them in the output — the
stable sort preserves input order of comparator-equal entries, it does
not re-break the tie by name, so the visible output order does change. -/
theorem C2_equal_key_swap_changes_output :
    cmpEntry { sortBy := SortBy.Name, foldersFirst := true } c2U c2L = Ordering.eq ∧
    c2U ≠ c2L ∧
    sortEntries { sortBy := SortBy.Name, foldersFirst := true } [c2U, c2L] = [c2U, c2L] ∧
    sortEntries { sortBy := SortBy.Name, foldersFirst := true } [c2L, c2U] = [c2L, c2U] ∧
    sortEntries { sortBy := SortBy.Name, foldersFirst := true } [c2U, c2L] ≠
      sortEntries { sortBy := SortBy.Name, foldersFirst := true } [c2L, c2U] := by
  refine ⟨by decide, by decide, by decide, by decide, by decide⟩

/-- C2 (amended): for every entry set and ordering policy the ordering
function is deterministic — it is a pure function whose output is the
unique permutation of its input that is sorted by the comparator's total
preorder and keeps comparator-equal entries in their input order (the
stability of Rust `sort_by`).  Ties with equal primary and secondary keys
are NOT further broken by name: comparator-equal entries keep their input
order, so swapping two such distinct entries swaps them in the output
rather than leaving it unchanged. -/
theorem C2_order_deterministic_sorted_stable :
    ∀ (p : Policy) (l : List Entry) (a b : Entry),
      List.Perm (sortEntries p l) l ∧
      List.Pairwise (entryLE p) (sortEntries p l) ∧
      (cmpEntry p a b = Ordering.eq → List.Sublist [a, b] l →
        List.Sublist [a, b] (sortEntries p l)) := by
  intro p l a b
  refine ⟨sortEntries_perm p l, sortEntries_sorted p l, fun heq hsub => ?_⟩
  exact sortEntries_stable (by simp [entryLE, heq]) hsub

/-- C2 witness: the comparator-equal pair `[c2U, c2L]` stays in input
order in the sorted output. -/
theorem C2_order_deterministic_sorted_stable_witness :
    List.Sublist [c2U, c2L]
      (sortEntries { sortBy := SortBy.Name, foldersFirst := true } [c2U, c2L]) :=
  (C2_order_deterministic_sorted_stable { sortBy := SortBy.Name, foldersFirst := true }
    [c2U, c2L] c2U c2L).2.2 (by decide) (by decide)

/-- C3 counterexample environment: the tool exits 0 and leaves a
non-empty output file, but the texture decoder fails on that content. -/
def c3Env : ThumbEnv :=
  { cacheDirOk := true, isImg := false, isVid := true, imgDecode := none,
    encodePng := fun _ => [], savevOk := true, toolStatus := some 0,
    toolWrites := some [1], texDecode := fun _ => none }

/-- C3 counterexample: for a video with a cache miss, the tool exits with
code 0 and the output cache file exists and is non-empty, yet
`get_or_create_thumbnail` returns absence — the code checks exit status
and existence and then requires the output to decode; it never checks
non-emptiness, so the claimed iff fails for non-empty undecodable
output. -/
theorem C3_nonempty_undecodable_output_yields_absence :
    (get_or_create_thumbnail c3Env none).result = none ∧
    c3Env.toolStatus = some 0 ∧ c3Env.toolWrites = some [1] ∧ ([1] : List Nat) ≠ [] := by
  refine ⟨rfl, rfl, rfl, by decide⟩

/-- C3 (amended): for every video file on a cache miss,
`get_or_create_thumbnail` returns a thumbnail iff the external tool exits
with code 0, the output cache file exists, and its content decodes
successfully as an image (which in particular forces it to be non-empty
for any real decoder); in every other case — non-zero exit, spawn
failure, missing output, undecodable output — it returns absence, never
an error. -/
theorem C3_video_thumbnail_iff_tool_success_and_decodable :
    ∀ (env : ThumbEnv),
      env.cacheDirOk = true → env.isImg = false → env.isVid = true →
      ((get_or_create_thumbnail env none).result.isSome = true ↔
        ∃ c, env.toolStatus = some 0 ∧ env.toolWrites = some c ∧
          (env.texDecode c).isSome = true) := by
  intro env hdir himg hvid
  unfold get_or_create_thumbnail
  rw [hdir, himg, hvid]
  simp only [Bool.true_eq_false, if_false, ite_false, Bool.false_eq_true, if_true, ite_true]
  cases hst : env.toolStatus with
  | none => simp
  | some code =>
    by_cases hcode : code = 0
    · subst hcode
      cases hw : env.toolWrites with
      | none => simp
      | some c =>
        simp only [Option.isSome_some, and_true, if_true, ite_true, Option.some_bind]
        constructor
        · intro h
          exact ⟨c, by simp, rfl, h⟩
        · rintro ⟨c2, _, hc2, hd⟩
          obtain rfl : c = c2 := Option.some_inj.mp hc2
          exact hd
    · simp [hcode]

/-- C3 witness environment: tool succeeds and its output decodes. -/
def c3wEnv : ThumbEnv :=
  { cacheDirOk := true, isImg := false, isVid := true, imgDecode := none,
    encodePng := fun _ => [], savevOk := true, toolStatus := some 0,
    toolWrites := some [1, 2], texDecode := fun _ => some 5 }

/-- C3 witness: with exit code 0, existing output and a successful
decode, a thumbnail is produced. -/
theorem C3_video_thumbnail_iff_tool_success_and_decodable_witness :
    (get_or_create_thumbnail c3wEnv none).result.isSome = true :=
  (C3_video_thumbnail_iff_tool_success_and_decodable c3wEnv rfl rfl rfl).mpr
    ⟨[1, 2], rfl, rfl, rfl⟩

/-- C4: for every entry set and ordering policy, if the filter substring
is non-empty and at least one entry name contains it case-insensitively,
the output contains exactly the entries whose names contain it; if no
entry name contains it, the output is the full unfiltered entry set (a
permutation of it, in sorted order), not an empty set. -/
theorem C4_filter_matching_or_fallback :
    ∀ (p : Policy) (f : String) (l : List Entry),
      f.isEmpty = false →
      ((∃ e, e ∈ l ∧ nameMatches f e) →
        applyFilter f l = l.filter (fun e => decide (nameMatches f e)) ∧
        ∀ e, e ∈ orderFn p f l ↔ e ∈ l ∧ nameMatches f e) ∧
      ((∀ e, e ∈ l → ¬ nameMatches f e) →
        applyFilter f l = l ∧ List.Perm (orderFn p f l) l) := by
  intro p f l hf
  constructor
  · intro hx
    have hne : (l.filter (fun e => decide (nameMatches f e))).isEmpty = false := by
      rw [List.isEmpty_eq_false]
      rw [ne_eq, List.filter_eq_nil_iff]
      push_neg
      obtain ⟨e, he, hm⟩ := hx
      exact ⟨e, he, by simpa using hm⟩
    have happ : applyFilter f l = l.filter (fun e => decide (nameMatches f e)) := by
      unfold applyFilter
      rw [hf]
      simp only [Bool.false_eq_true, if_false, hne]
    refine ⟨happ, fun e => ?_⟩
    unfold orderFn sortEntries
    rw [happ]
    rw [List.mem_insertionSort]
    rw [List.mem_filter]
    simp
  · intro hnone
    have hnil : l.filter (fun e => decide (nameMatches f e)) = [] := by
      rw [List.filter_eq_nil_iff]
      intro a ha
      simpa using hnone a ha
    have happ : applyFilter f l = l := by
      unfold applyFilter
      rw [hf, hnil]
      simp
    refine ⟨happ, ?_⟩
    unfold orderFn
    rw [happ]
    exact sortEntries_perm p l

/-- C4 witness: filtering two entries by a substring matching exactly one
of them keeps exactly the match. -/
theorem C4_filter_matching_or_fallback_witness :
    applyFilter ("b")
      [{ name := "abc", path := "/d/abc", meta := none, isDir := false },
       { name := "xyz", path := "/d/xyz", meta := none, isDir := false }] =
      List.filter (fun e => decide (nameMatches ("b") e))
        [{ name := "abc", path := "/d/abc", meta := none, isDir := false },
         { name := "xyz", path := "/d/xyz", meta := none, isDir := false }] ∧
    ∀ e, e ∈ orderFn { sortBy := SortBy.Name, foldersFirst := true } ("b")
        [{ name := "abc", path := "/d/abc", meta := none, isDir := false },
         { name := "xyz", path := "/d/xyz", meta := none, isDir := false }] ↔
      e ∈ [{ name := "abc", path := "/d/abc", meta := none, isDir := false },
           { name := "xyz", path := "/d/xyz", meta := none, isDir := false }] ∧
        nameMatches ("b") e :=
  (C4_filter_matching_or_fallback { sortBy := SortBy.Name, foldersFirst := true }
    ("b")
    [{ name := "abc", path := "/d/abc", meta := none, isDir := false },
     { name := "xyz", path := "/d/xyz", meta := none, isDir := false }]
    (by decide)).1 (by decide)

/-- C5: for every entry set and every sort key, when `folders_first` is
true every directory entry precedes every file entry in the ordered
output (no file is followed by a directory), and when it is false every
file entry precedes every directory entry. -/
theorem C5_folders_first_grouping :
    ∀ (p : Policy) (l : List Entry),
      (p.foldersFirst = true →
        List.Pairwise (fun a b => b.isDir = true → a.isDir = true) (sortEntries p l)) ∧
      (p.foldersFirst = false →
        List.Pairwise (fun a b => a.isDir = true → b.isDir = true) (sortEntries p l)) := by
  intro p l
  constructor
  · intro hff
    exact (sortEntries_sorted p l).imp (fun hle hb => entryLE_dir_first hff hle hb)
  · intro hff
    exact (sortEntries_sorted p l).imp (fun hle ha => entryLE_file_first hff hle ha)

/-- C5 witness: with folders first, sorting a file before a directory
yields a directory-first output. -/
theorem C5_folders_first_grouping_witness :
    List.Pairwise (fun a b => b.isDir = true → a.isDir = true)
      (sortEntries { sortBy := SortBy.Name, foldersFirst := true }
        [{ name := "f", path := "/d/f", meta := none, isDir := false },
         { name := "d", path := "/d/d", meta := none, isDir := true }]) :=
  (C5_folders_first_grouping { sortBy := SortBy.Name, foldersFirst := true }
    [{ name := "f", path := "/d/f", meta := none, isDir := false },
     { name := "d", path := "/d/d", meta := none, isDir := true }]).1 rfl

/-- The file "b.txt", 100 bytes, older, of the C6 scenario. -/
def c6B : Entry :=
  { name := "b.txt", path := "/d/b.txt", meta := some { len := 100, modified := some 100 },
    isDir := false }

/-- The directory "A" of the C6 scenario. -/
def c6A : Entry :=
  { name := "A", path := "/d/A", meta := some { len := 4096, modified := some 150 },
    isDir := true }

/-- The file "a.txt", 50 bytes, newer, of the C6 scenario. -/
def c6a : Entry :=
  { name := "a.txt", path := "/d/a.txt", meta := some { len := 50, modified := some 200 },
    isDir := false }

/-- C6: within each directory/file group the secondary order follows the
sort key — `Name` case-insensitively ascending, `Size` descending by byte
count with absent size as 0, `Date` descending by modification time with
absent timestamps last — and the three concrete scenarios of the spec:
for the set { "b.txt" (100B, older), "A" (dir), "a.txt" (50B, newer) },
policy {Name, folders_first} gives ["A", "a.txt", "b.txt"], policy
{Size, folders_first} gives ["A", "b.txt", "a.txt"], and policy
{Date, files_first} gives ["a.txt", "b.txt", "A"]. -/
theorem C6_secondary_order_and_scenarios :
    (∀ (p : Policy) (l : List Entry),
      List.Pairwise (fun a b => a.isDir = b.isDir → secLE p.sortBy a b) (sortEntries p l)) ∧
    (sortEntries { sortBy := SortBy.Name, foldersFirst := true } [c6B, c6A, c6a]).map
      Entry.name = ["A", "a.txt", "b.txt"] ∧
    (sortEntries { sortBy := SortBy.Size, foldersFirst := true } [c6B, c6A, c6a]).map
      Entry.name = ["A", "b.txt", "a.txt"] ∧
    (sortEntries { sortBy := SortBy.Date, foldersFirst := false } [c6B, c6A, c6a]).map
      Entry.name = ["a.txt", "b.txt", "A"] := by
  refine ⟨fun p l => (sortEntries_sorted p l).imp (fun hle h => entryLE_same_dir h hle),
    by decide, by decide, by decide⟩

/-- C7 counterexample: a navigation to `trash://` is a navigation request
whose `load_path` call leaves the session counter unchanged — the trash
branch returns before `fetch_add` runs — refuting "incremented exactly
once per navigation/refresh request". -/
theorem C7_trash_request_does_not_increment :
    (loadPathSession true 5).1 = 5 ∧ (loadPathSession true 5).2 = none ∧ (5 : Nat) ≠ 5 + 1 := by
  refine ⟨rfl, rfl, by decide⟩

/-- C7 (amended): every non-trash navigation/refresh request increments
the shared session counter exactly once, immediately before scanning,
while a trash request leaves it unchanged; no request ever decrements or
resets it, so over any request sequence short of the unreachable `u64`
wrap the counter equals its start plus the number of non-trash requests
and the issued session ids are strictly increasing. -/
theorem C7_session_counter_monotone :
    ∀ (c : Nat) (ts : List Bool),
      (loadPathSession true c).1 = c ∧
      (c + 1 < 2 ^ 64 →
        (loadPathSession false c).1 = c + 1 ∧ (loadPathSession false c).2 = some (c + 1)) ∧
      (c + nonTrashCount ts < 2 ^ 64 →
        runRequests c ts = c + nonTrashCount ts ∧
        List.Pairwise (· < ·) (issuedIds c ts)) := by
  intro c ts
  refine ⟨rfl, fun h => ?_, fun h => ⟨runRequests_eq ts c h, (issuedIds_mono ts c h).1⟩⟩
  have hc : (c + 1) % 2 ^ 64 = c + 1 := Nat.mod_eq_of_lt h
  constructor
  · simp [loadPathSession, hc]
    omega
  · simp [loadPathSession, hc]
    omega

/-- C7 witness: from counter 0, the sequence non-trash, trash, non-trash
ends at 2 with strictly increasing issued ids. -/
theorem C7_session_counter_monotone_witness :
    (loadPathSession true 0).1 = 0 ∧
    ((loadPathSession false 0).1 = 0 + 1 ∧ (loadPathSession false 0).2 = some (0 + 1)) ∧
    (runRequests 0 [false, true, false] = 0 + nonTrashCount [false, true, false] ∧
      List.Pairwise (· < ·) (issuedIds 0 [false, true, false])) :=
  ⟨(C7_session_counter_monotone 0 [false, true, false]).1,
   (C7_session_counter_monotone 0 [false, true, false]).2.1 (by decide),
   (C7_session_counter_monotone 0 [false, true, false]).2.2 (by decide)⟩

/-- C8 counterexample environment: a video whose tool invocation fails
and writes nothing. -/
def c8Env : ThumbEnv :=
  { cacheDirOk := true, isImg := false, isVid := true, imgDecode := none,
    encodePng := fun _ => [], savevOk := true, toolStatus := some 1,
    toolWrites := none, texDecode := fun _ => none }

/-- C8 counterexample: when the first call fails to produce a cache file
(tool exit 1, nothing written), the second call on the same unchanged
path invokes the external tool again — it is not a cache hit, refuting
the unconditional idempotence claim. -/
theorem C8_failed_first_call_reinvokes_tool :
    (get_or_create_thumbnail c8Env none).cache = none ∧
    (get_or_create_thumbnail c8Env none).invokedTool = true ∧
    (get_or_create_thumbnail c8Env
      ((get_or_create_thumbnail c8Env none).cache)).invokedTool = true :=
  ⟨rfl, rfl, rfl⟩

/-- C8 (amended): whenever a call leaves the cache file for the path
present, the next call on the same unchanged path is a cache hit: it
leaves the on-disk cache content byte-identical and performs no source
image decode and no external tool invocation.  (When the first call
produced no cache file, the second call repeats the work.) -/
theorem C8_cache_hit_after_cached_first_call :
    ∀ (env : ThumbEnv) (c0 : Option (List Nat)),
      ((get_or_create_thumbnail env c0).cache).isSome = true →
      (get_or_create_thumbnail env ((get_or_create_thumbnail env c0).cache)).cache =
        (get_or_create_thumbnail env c0).cache ∧
      (get_or_create_thumbnail env
        ((get_or_create_thumbnail env c0).cache)).decodedSource = false ∧
      (get_or_create_thumbnail env
        ((get_or_create_thumbnail env c0).cache)).invokedTool = false := by
  intro env c0 h
  obtain ⟨c, hc⟩ := Option.isSome_iff_exists.mp h
  rw [hc]
  exact get_some_cache_hit env c

/-- C8 witness environment: an image that decodes and caches on the
first call. -/
def c8wEnv : ThumbEnv :=
  { cacheDirOk := true, isImg := true, isVid := false, imgDecode := some 7,
    encodePng := fun n => [n], savevOk := true, toolStatus := none,
    toolWrites := none, texDecode := fun _ => some 7 }

/-- C8 witness: after a first call that cached the image, the second call
is a cache hit with unchanged content and no decode or tool work. -/
theorem C8_cache_hit_after_cached_first_call_witness :
    (get_or_create_thumbnail c8wEnv ((get_or_create_thumbnail c8wEnv none).cache)).cache =
      (get_or_create_thumbnail c8wEnv none).cache ∧
    (get_or_create_thumbnail c8wEnv
      ((get_or_create_thumbnail c8wEnv none).cache)).decodedSource = false ∧
    (get_or_create_thumbnail c8wEnv
      ((get_or_create_thumbnail c8wEnv none).cache)).invokedTool = false :=
  C8_cache_hit_after_cached_first_call c8wEnv none rfl

/-- C9: directory scanning is best-effort and total: a directory that
cannot be opened for listing yields an empty listing (never an error),
and every child whose metadata stat fails — provided it is not excluded
by the hidden-name filter — still appears in the listing with its
metadata fields absent; one bad entry never fails the whole scan. -/
theorem C9_scan_best_effort :
    ∀ (dirPath : String) (showHidden : Bool)
      (children : List (Option RawChild)) (c : RawChild),
      scanDir dirPath showHidden none = [] ∧
      (some c ∈ children → c.meta = none →
        (showHidden = true ∨ startsWithDot c.name = false) →
        ∃ e, e ∈ scanDir dirPath showHidden (some children) ∧
          e.name = c.name ∧ e.meta = none ∧ e.isDir = c.isDir) := by
  intro dirPath showHidden children c
  refine ⟨rfl, fun hmem hmeta hvis => ?_⟩
  refine ⟨{ name := c.name, path := dirPath ++ ("/") ++ c.name,
            meta := c.meta, isDir := c.isDir }, ?_, rfl, hmeta, rfl⟩
  unfold scanDir
  rw [List.mem_filterMap]
  refine ⟨c, ?_, ?_⟩
  · rw [List.mem_filterMap]
    exact ⟨some c, hmem, rfl⟩
  · rcases hvis with h | h <;> simp [h]

/-- C9 witness: a stat-failed, non-hidden child of a readable directory
appears in the listing with absent metadata, and an unreadable directory
lists as empty. -/
theorem C9_scan_best_effort_witness :
    scanDir ("/d") false none = [] ∧
    ∃ e, e ∈ scanDir ("/d") false
        (some [some { name := "x", meta := none, isDir := false }]) ∧
      e.name = ("x") ∧ e.meta = none ∧ e.isDir = false :=
  ⟨(C9_scan_best_effort ("/d") false [some { name := "x", meta := none, isDir := false }]
      { name := "x", meta := none, isDir := false }).1,
   (C9_scan_best_effort ("/d") false [some { name := "x", meta := none, isDir := false }]
      { name := "x", meta := none, isDir := false }).2 (by decide) rfl
      (Or.inr (by decide))⟩

/-- C10: a thumbnail-ready event that carries the current session id but
whose entry name matches no entry of the displayed listing is silently
dropped: the state — in particular every entry of the listing — is left
completely unchanged. -/
theorem C10_unmatched_thumbnail_leaves_state_unchanged :
    ∀ (s : AppState) (name : String) (tex id : Nat),
      id = s.loadId →
      (∀ item ∈ s.files, item.name ≠ name) →
      step s (Ev.thumbReady name tex id) = s := by
  intro s name tex id hid hno
  simp only [step, hid, if_true, ite_true]
  rw [setThumb_no_match name tex s.files hno]

/-- C10 witness: a current-session result for an absent name leaves a
concrete state untouched. -/
theorem C10_unmatched_thumbnail_leaves_state_unchanged_witness :
    step { loadId := 1, files := [{ name := "a", thumb := none }] }
      (Ev.thumbReady ("b") 3 1) =
    { loadId := 1, files := [{ name := "a", thumb := none }] } :=
  C10_unmatched_thumbnail_leaves_state_unchanged
    { loadId := 1, files := [{ name := "a", thumb := none }] } ("b") 3 1 rfl (by decide)

end Flux
